import Mathlib

/-
Shallow embedding of src/src/base_fs_cache.rs (crate generic_filesystem_cache).

The Rust code is a disk-backed key-value store `BaseFsCache<T>`:
  an in-memory `HashMap<PathBuf, T>` behind a `RwLock`, an `AtomicU32`
  modification counter, and a crash-safe save protocol (serialize the whole
  map into `cache_path.with_extension("tmp")`, then `std::fs::rename` the
  temporary file over the target).

Modelling choices:
  - Sequential model: the claims under study are single-threaded, so the
    `RwLock`/atomic operations are flattened into explicit state passing.
    `fetch_add` on the `AtomicU32` becomes Nat addition modulo 2^32.
  - `PathBuf` is modelled structurally as parent components, a file stem and
    an optional extension; `with_extension` replaces the extension field
    (matching the Rust standard library, which replaces, never appends).
  - The filesystem is a finite association of paths to file contents plus an
    environment component `createFails` (paths at which `File::create` fails,
    modelling I/O faults such as permission errors) and a ghost counter
    `ioCount` recording how many times the disk-writing routine `save_inner`
    was entered.
  - bincode encoding of the map is modelled by the constructor
    `FileData.encoded`; any byte string that fails to decode as the expected
    map type is `FileData.corrupt msg` where `msg` is the decoder cause.
  - `create_dir_all` on the parent directory is treated as always succeeding
    (directories carry no data relevant to any claim); buffering inside
    `BufWriter` is flattened to immediate file content updates.
  - errors.rs is not in src/; the variant shapes below are taken from their
    construction sites in base_fs_cache.rs and from spec section 7.
-/

namespace GenericFsCache

/-- Structural model of `std::path::PathBuf`: parent components, file stem,
optional extension. Key identity is opaque; the store performs no
normalization. -/
structure Path where
  dir : List String
  stem : String
  ext : Option String
deriving DecidableEq

/-- Model of `PathBuf::with_extension`: the Rust standard library replaces the
current extension (or adds one if absent); it never appends to an existing
extension. -/
def Path.withExtension (p : Path) (e : String) : Path :=
  { p with ext := some e }

/-- Model of `type CacheDiskFormat<T> = HashMap<PathBuf, T>` as an association
list; only lookup semantics matter. -/
abbrev CMap (T : Type) := List (Path × T)

/-- Lookup, mirroring `HashMap::get`. -/
def mapGet {T : Type} (m : CMap T) (k : Path) : Option T :=
  (m.find? fun q => decide (q.1 = k)).map Prod.snd

/-- Insert or overwrite, mirroring `HashMap::insert`. -/
def mapInsert {T : Type} (m : CMap T) (k : Path) (v : T) : CMap T :=
  (k, v) :: m.filter fun q => !decide (q.1 = k)

/-- Removal, mirroring `HashMap::remove` (no error if absent). -/
def mapRemove {T : Type} (m : CMap T) (k : Path) : CMap T :=
  m.filter fun q => !decide (q.1 = k)

/-- Membership, mirroring `HashMap::contains_key`. -/
def mapContains {T : Type} (m : CMap T) (k : Path) : Bool :=
  m.any fun q => decide (q.1 = k)

/-- Entry count, mirroring `HashMap::len`. -/
def mapLen {T : Type} (m : CMap T) : Nat :=
  m.length

/-- Contents of one file on disk: either a bincode encoding of a map snapshot,
or bytes that fail to decode as the expected type (carrying the decoder
cause). -/
inductive FileData (T : Type) where
  | encoded (m : CMap T)
  | corrupt (msg : String)
deriving DecidableEq

/-- The filesystem state: file contents per path, the set of paths where
`File::create` fails (environment fault injection), and a ghost counter of
entries into the disk-writing routine `save_inner`. -/
structure FsState (T : Type) where
  files : List (Path × FileData T)
  createFails : List Path
  ioCount : Nat
deriving DecidableEq

/-- Read a file, `none` when the path does not exist. -/
def fsRead {T : Type} (fs : FsState T) (p : Path) : Option (FileData T) :=
  (fs.files.find? fun q => decide (q.1 = p)).map Prod.snd

/-- Create or truncate-and-write a file at a path. -/
def fsWrite {T : Type} (fs : FsState T) (p : Path) (d : FileData T) : FsState T :=
  { fs with files := (p, d) :: fs.files.filter fun q => !decide (q.1 = p) }

/-- Remove a path from the filesystem. -/
def fsErase {T : Type} (fs : FsState T) (p : Path) : FsState T :=
  { fs with files := fs.files.filter fun q => !decide (q.1 = p) }

/-- Model of `std::fs::rename src dst`: fails (none) when the source is
absent; otherwise the destination atomically receives the source contents and
the source name is gone. Renaming a path onto itself leaves its contents in
place, as on POSIX. -/
def fsRename {T : Type} (fs : FsState T) (src dst : Path) : Option (FsState T) :=
  match fsRead fs src with
  | none => none
  | some d => some (fsWrite (fsErase fs src) dst d)

/-- Error taxonomy of errors.rs (shapes from the construction sites in
base_fs_cache.rs and spec section 7): `src` is the formatted underlying
cause. -/
inductive FsCacheErrorKind where
  | CacheFileIoError (src : String) (path : Path)
  | SerializationError (src : String) (path : Path)
  | DeserializationError (src : String) (path : Path)
  | KeyMissingError (path : Path)
deriving DecidableEq

abbrev FsCacheResult (α : Type) := Except FsCacheErrorKind α

/-- Decidable equality of results, for evaluating concrete runs. -/
instance {ε α : Type} [DecidableEq ε] [DecidableEq α] : DecidableEq (Except ε α) :=
  fun x y =>
  match x, y with
  | .error a, .error b =>
    if h : a = b then .isTrue (h ▸ rfl) else .isFalse fun he => h (Except.error.inj he)
  | .ok a, .ok b =>
    if h : a = b then .isTrue (h ▸ rfl) else .isFalse fun he => h (Except.ok.inj he)
  | .error _, .ok _ => .isFalse fun he => Except.noConfusion he
  | .ok _, .error _ => .isFalse fun he => Except.noConfusion he

/-- The store of base_fs_cache.rs. `cache_modified_count` is the `AtomicU32`
value (a Nat kept below 2^32 by the wrapping increment). -/
structure BaseFsCache (T : Type) where
  loaded_from_disk : Bool
  cache_save_threshold : Nat
  cache_modified_count : Nat
  cache_path : Path
  cache : CMap T
deriving DecidableEq

/-- Modulus of u32 arithmetic. -/
def U32MOD : Nat := 4294967296

/-- u32 wrapping decrement, modelling `self.cache_save_threshold - 1` (all
claims restrict the threshold to T at least 1, where this is plain
subtraction). -/
def u32pred (n : Nat) : Nat :=
  (n + (U32MOD - 1)) % U32MOD

/-- Message standing for the formatted io error of a failed `File::create`
(injected by the environment). -/
def createErrMsg : String := "file create failed"

/-- Message standing for the formatted io error of a failed `std::fs::rename`. -/
def renameErrMsg : String := "rename failed"

/-- Temporary file path used by `save_inner`, line 76 of base_fs_cache.rs:
`self.cache_path.with_extension("tmp")`. -/
def temp_store_path {T : Type} (s : BaseFsCache T) : Path :=
  s.cache_path.withExtension "tmp"

/-- Filesystem state right after `File::create(&temp_store_path)` succeeded:
the temporary file exists and is truncated to empty (and the ghost attempt
counter has been bumped on entry to `save_inner`). -/
def saveTempTruncated {T : Type} (s : BaseFsCache T) (fs : FsState T) : FsState T :=
  fsWrite { fs with ioCount := fs.ioCount + 1 } (temp_store_path s) (.encoded [])

/-- Filesystem state after `bincode::serialize_into` wrote the full snapshot
into the temporary file, before the rename. -/
def saveTempWritten {T : Type} (s : BaseFsCache T) (fs : FsState T) : FsState T :=
  fsWrite (saveTempTruncated s fs) (temp_store_path s) (.encoded s.cache)

/-- Model of `save_inner` (base_fs_cache.rs lines 57-120): ensure the parent
directory exists (always succeeds in the model), create the sibling temporary
file, serialize the entire map into it, then rename it over the target. On a
`File::create` failure a `CacheFileIoError` carrying the cache path is
returned with no file modified. -/
def save_inner {T : Type} (s : BaseFsCache T) (fs : FsState T) :
    FsCacheResult Unit × FsState T :=
  if temp_store_path s ∈ fs.createFails then
    (.error (.CacheFileIoError createErrMsg s.cache_path),
      { fs with ioCount := fs.ioCount + 1 })
  else
    match fsRename (saveTempWritten s fs) (temp_store_path s) s.cache_path with
    | none => (.error (.CacheFileIoError renameErrMsg s.cache_path), saveTempWritten s fs)
    | some fs2 => (.ok (), fs2)

/-- Model of `save` (lines 48-55): reads the modification counter and calls
`save_inner` only when it is non-zero; it never writes the counter, so the
store is returned unchanged. -/
def save {T : Type} (s : BaseFsCache T) (fs : FsState T) :
    FsCacheResult Unit × BaseFsCache T × FsState T :=
  if s.cache_modified_count ≠ 0 then
    ((save_inner s fs).1, s, (save_inner s fs).2)
  else
    (.ok (), s, fs)

/-- Model of `load_cache_from_disk` (lines 122-160): a missing file yields an
empty map (not an error); an existing file is decoded, a decode failure is a
`DeserializationError` carrying the cause and the path. -/
def load_cache_from_disk {T : Type} (s : BaseFsCache T) (fs : FsState T) :
    FsCacheResult (BaseFsCache T) :=
  match fsRead fs s.cache_path with
  | none => .ok { s with cache := [], loaded_from_disk := true }
  | some (.encoded m) => .ok { s with cache := m, loaded_from_disk := true }
  | some (.corrupt msg) => .error (.DeserializationError msg s.cache_path)

/-- Store state produced by a successful load: freshly constructed fields with
the map read from disk (or empty). -/
def loadedStore {T : Type} (Tt : Nat) (p : Path) (m : CMap T) : BaseFsCache T :=
  { loaded_from_disk := true
    cache_save_threshold := Tt
    cache_modified_count := 0
    cache_path := p
    cache := m }

/-- Model of `BaseFsCache::new` (lines 33-46): default fields then
`load_cache_from_disk`. -/
def new {T : Type} (cache_save_threshold : Nat) (cache_path : Path) (fs : FsState T) :
    FsCacheResult (BaseFsCache T) :=
  load_cache_from_disk
    { loaded_from_disk := false
      cache_save_threshold := cache_save_threshold
      cache_modified_count := 0
      cache_path := cache_path
      cache := [] } fs

/-- Model of `update_transaction_count_and_save_if_necessary` (lines 197-213):
when the pre-increment counter equals threshold minus one, the counter is
stored to zero and a synchronous `save_inner` runs; otherwise nothing
happens. -/
def update_transaction_count_and_save_if_necessary {T : Type}
    (s : BaseFsCache T) (fs : FsState T) (prev_count : Nat) :
    FsCacheResult Unit × BaseFsCache T × FsState T :=
  if prev_count = u32pred s.cache_save_threshold then
    ((save_inner { s with cache_modified_count := 0 } fs).1,
     { s with cache_modified_count := 0 },
     (save_inner { s with cache_modified_count := 0 } fs).2)
  else
    (.ok (), s, fs)

/-- Model of `insert` (lines 166-182): `fetch_add(1)` on the counter (the
pre-increment value `prev` is passed on), map insertion, then the autosave
decision. -/
def insert {T : Type} (s : BaseFsCache T) (fs : FsState T) (key : Path) (item : T) :
    FsCacheResult Unit × BaseFsCache T × FsState T :=
  update_transaction_count_and_save_if_necessary
    { s with cache_modified_count := (s.cache_modified_count + 1) % U32MOD,
             cache := mapInsert s.cache key item }
    fs s.cache_modified_count

/-- Model of `remove` (lines 184-195): map removal first, then `fetch_add(1)`
(the counter is untouched by the map removal, so the pre-increment value is
still the stored count), then the autosave decision. -/
def remove {T : Type} (s : BaseFsCache T) (fs : FsState T) (key : Path) :
    FsCacheResult Unit × BaseFsCache T × FsState T :=
  update_transaction_count_and_save_if_necessary
    { s with cache := mapRemove s.cache key,
             cache_modified_count := (s.cache_modified_count + 1) % U32MOD }
    fs s.cache_modified_count

/-- Model of `get` (lines 215-225): a clone of the stored value, or
`KeyMissingError` carrying the missing key path. -/
def get {T : Type} (s : BaseFsCache T) (key : Path) : FsCacheResult T :=
  match mapGet s.cache key with
  | some v => .ok v
  | none => .error (.KeyMissingError key)

/-- `get` takes `&self`: the store is untouched. This wrapper makes the
read-only receiver explicit in the state-passing model. -/
def getWithState {T : Type} (s : BaseFsCache T) (key : Path) :
    FsCacheResult T × BaseFsCache T :=
  (get s key, s)

/-- Model of `contains_key` (lines 227-232). -/
def contains_key {T : Type} (s : BaseFsCache T) (key : Path) : Bool :=
  mapContains s.cache key

/-- Model of `keys` (lines 234-242). -/
def keys {T : Type} (s : BaseFsCache T) : List Path :=
  s.cache.map Prod.fst

/-- Model of `len` (lines 244-251). -/
def len {T : Type} (s : BaseFsCache T) : Nat :=
  mapLen s.cache

/-- A single mutation of the public API, for reasoning about operation
sequences. -/
inductive CacheOp (T : Type) where
  | ins (key : Path) (item : T)
  | rem (key : Path)

/-- Apply one mutation, discarding the result value (errors propagate to the
caller in the source; the state effects are what the round-trip claim is
about). -/
def runOp {T : Type} (s : BaseFsCache T) (fs : FsState T) :
    CacheOp T → BaseFsCache T × FsState T
  | .ins k v => ((insert s fs k v).2.1, (insert s fs k v).2.2)
  | .rem k => ((remove s fs k).2.1, (remove s fs k).2.2)

/-- Apply a finite sequence of mutations in order. -/
def runOps {T : Type} (s : BaseFsCache T) (fs : FsState T) :
    List (CacheOp T) → BaseFsCache T × FsState T
  | [] => (s, fs)
  | op :: rest => runOps (runOp s fs op).1 (runOp s fs op).2 rest

/-
Concrete stores, filesystems and keys used by the demonstration scenario of
the threshold claim and by the witnesses of the other claims.
-/

/-- A cache file path with a conventional (non-tmp) extension. -/
def wPathF : Path := ⟨["home", "user"], "cache", some "bin"⟩

/-- The sibling temporary path of `wPathF`. -/
def wPathFtmp : Path := ⟨["home", "user"], "cache", some "tmp"⟩

def wKeyA : Path := ⟨["data"], "a", none⟩

def wKeyB : Path := ⟨["data"], "b", none⟩

def wKeyC : Path := ⟨["data"], "c", none⟩

/-- An empty, fault-free filesystem. -/
def wFsEmpty : FsState Nat := ⟨[], [], 0⟩

/-- A filesystem whose cache file holds bytes that do not decode. -/
def wFsCorrupt : FsState Nat := ⟨[(wPathF, .corrupt "decode failed")], [], 0⟩

/-- A store with one entry and a pending (non-zero) modification count. -/
def wStoreBin : BaseFsCache Nat := ⟨true, 5, 2, wPathF, [(wKeyA, 7)]⟩

/-- A store with a zero modification count. -/
def wStoreZero : BaseFsCache Nat := ⟨true, 5, 0, wPathF, [(wKeyA, 7)]⟩

/-- A store with threshold 3 whose counter stands one mutation short. -/
def wStoreT3 : BaseFsCache Nat := ⟨true, 3, 2, wPathF, [(wKeyA, 7)]⟩

/-- A store with threshold 1 (every mutation triggers an autosave). -/
def wStoreT1 : BaseFsCache Nat := ⟨true, 1, 0, wPathF, [(wKeyA, 7)]⟩

/-- A filesystem where creating the temporary file of `wPathF` fails. -/
def wFsFail : FsState Nat := ⟨[(wPathF, .encoded [(wKeyA, 7)])], [wPathFtmp], 0⟩

/-- A cache path whose extension is already tmp, so the temporary path of the
save protocol coincides with the target itself. -/
def cexPathTmp : Path := ⟨[], "cache", some "tmp"⟩

def cexKey : Path := ⟨[], "a", none⟩

/-- A store saving to a target with a tmp extension. -/
def cexStore : BaseFsCache Nat := ⟨true, 10, 1, cexPathTmp, []⟩

/-- A filesystem whose target file holds an older snapshot that a crash-safe
save protocol must preserve until the rename. -/
def cexFs : FsState Nat := ⟨[(cexPathTmp, .encoded [(cexKey, 5)])], [], 0⟩

/-- Scenario of the threshold claim: threshold 3, empty store, fresh path. -/
def demoStore : BaseFsCache Nat := ⟨true, 3, 0, wPathF, []⟩

def demoOps : List (CacheOp Nat) := [.ins wKeyA 10, .ins wKeyB 20, .ins wKeyC 30]

/-- The store and filesystem after inserting three distinct keys sequentially
from a single thread, starting from an empty store with threshold 3. -/
def demoRun : BaseFsCache Nat × FsState Nat := runOps demoStore wFsEmpty demoOps

/-- Store and ops for the round-trip witness. -/
def rtStore : BaseFsCache Nat := ⟨true, 5, 0, wPathF, []⟩

def rtOps : List (CacheOp Nat) := [.ins wKeyA 1, .ins wKeyB 2, .rem wKeyA]

/-
Basic lemmas about the filesystem and map models.
-/

lemma find?_filter_ne {α : Type} (l : List (Path × α)) (p q : Path) (h : p ≠ q) :
    ((l.filter fun r => !decide (r.1 = q)).find? fun r => decide (r.1 = p)) =
      l.find? fun r => decide (r.1 = p) := by
  have hqp : ¬ q = p := fun e => h e.symm
  induction l with
  | nil => rfl
  | cons a t ih =>
    by_cases haq : a.1 = q
    · have hap : ¬ a.1 = p := fun hp => h (hp.symm.trans haq)
      simp [List.filter_cons, List.find?_cons, haq, hap, hqp, ih]
    · by_cases hap : a.1 = p
      · simp [List.filter_cons, List.find?_cons, haq, hap, h, ih]
      · simp [List.filter_cons, List.find?_cons, haq, hap, ih]

lemma find?_filter_self {α : Type} (l : List (Path × α)) (k : Path) :
    ((l.filter fun r => !decide (r.1 = k)).find? fun r => decide (r.1 = k)) = none := by
  induction l with
  | nil => rfl
  | cons a t ih =>
    by_cases hak : a.1 = k
    · simp [List.filter_cons, hak, ih]
    · simp [List.filter_cons, List.find?_cons, hak, ih]

lemma fsRead_fsWrite_self {T : Type} (fs : FsState T) (p : Path) (d : FileData T) :
    fsRead (fsWrite fs p d) p = some d := by
  simp [fsRead, fsWrite, List.find?_cons]

lemma fsRead_fsWrite_ne {T : Type} (fs : FsState T) (p q : Path) (d : FileData T)
    (h : p ≠ q) : fsRead (fsWrite fs q d) p = fsRead fs p := by
  have hqp : ¬ q = p := fun hq => h hq.symm
  simp only [fsRead, fsWrite]
  rw [List.find?_cons_of_neg, find?_filter_ne fs.files p q h]
  simp [hqp]

lemma fsRead_fsErase_ne {T : Type} (fs : FsState T) (p q : Path)
    (h : p ≠ q) : fsRead (fsErase fs q) p = fsRead fs p := by
  simp only [fsRead, fsErase]
  rw [find?_filter_ne fs.files p q h]

lemma mapGet_mapInsert_self {T : Type} (m : CMap T) (k : Path) (v : T) :
    mapGet (mapInsert m k v) k = some v := by
  simp [mapGet, mapInsert, List.find?_cons]

lemma mapGet_mapRemove_self {T : Type} (m : CMap T) (k : Path) :
    mapGet (mapRemove m k) k = none := by
  simp only [mapGet, mapRemove]
  rw [find?_filter_self]
  rfl

lemma fsRename_fields {T : Type} (fs fs2 : FsState T) (src dst : Path)
    (h : fsRename fs src dst = some fs2) :
    fs2.createFails = fs.createFails ∧ fs2.ioCount = fs.ioCount := by
  unfold fsRename at h
  cases hr : fsRead fs src with
  | none => rw [hr] at h; cases h
  | some d =>
    rw [hr] at h
    injection h with h
    subst h
    exact ⟨rfl, rfl⟩

/-
Preservation lemmas for the save routine and the mutating operations.
-/

lemma save_inner_createFails {T : Type} (s : BaseFsCache T) (fs : FsState T) :
    (save_inner s fs).2.createFails = fs.createFails := by
  unfold save_inner
  split
  · rfl
  · split
    · rfl
    · next fs2 heq =>
      exact (fsRename_fields _ _ _ _ heq).1

lemma save_inner_ioCount {T : Type} (s : BaseFsCache T) (fs : FsState T) :
    (save_inner s fs).2.ioCount = fs.ioCount + 1 := by
  unfold save_inner
  split
  · rfl
  · split
    · rfl
    · next fs2 heq =>
      exact (fsRename_fields _ _ _ _ heq).2

lemma save_inner_ok {T : Type} (s : BaseFsCache T) (fs : FsState T)
    (h : temp_store_path s ∉ fs.createFails) :
    (save_inner s fs).1 = .ok () ∧
      fsRead (save_inner s fs).2 s.cache_path = some (.encoded s.cache) := by
  have hread : fsRead (saveTempWritten s fs) (temp_store_path s) = some (.encoded s.cache) :=
    fsRead_fsWrite_self _ _ _
  have hr : fsRename (saveTempWritten s fs) (temp_store_path s) s.cache_path =
      some (fsWrite (fsErase (saveTempWritten s fs) (temp_store_path s)) s.cache_path
        (.encoded s.cache)) := by
    unfold fsRename
    rw [hread]
  unfold save_inner
  rw [if_neg h, hr]
  exact ⟨rfl, fsRead_fsWrite_self _ _ _⟩

lemma update_count_createFails {T : Type} (s : BaseFsCache T) (fs : FsState T) (prev : Nat) :
    (update_transaction_count_and_save_if_necessary s fs prev).2.2.createFails =
      fs.createFails := by
  unfold update_transaction_count_and_save_if_necessary
  split
  · exact save_inner_createFails _ _
  · rfl

lemma insert_createFails {T : Type} (s : BaseFsCache T) (fs : FsState T) (k : Path) (v : T) :
    (insert s fs k v).2.2.createFails = fs.createFails := by
  unfold insert
  exact update_count_createFails _ _ _

lemma remove_createFails {T : Type} (s : BaseFsCache T) (fs : FsState T) (k : Path) :
    (remove s fs k).2.2.createFails = fs.createFails := by
  unfold remove
  exact update_count_createFails _ _ _

lemma runOps_createFails {T : Type} (ops : List (CacheOp T)) (s : BaseFsCache T)
    (fs : FsState T) : (runOps s fs ops).2.createFails = fs.createFails := by
  induction ops generalizing s fs with
  | nil => rfl
  | cons op rest ih =>
    cases op with
    | ins k v =>
      rw [runOps]
      rw [ih]
      exact insert_createFails _ _ _ _
    | rem k =>
      rw [runOps]
      rw [ih]
      exact remove_createFails _ _ _

lemma new_unfold {T : Type} (Tt : Nat) (p : Path) (fs : FsState T) :
    new Tt p fs =
      match fsRead fs p with
      | none => .ok (loadedStore Tt p [])
      | some (.encoded m) => .ok (loadedStore Tt p m)
      | some (.corrupt msg) => .error (.DeserializationError msg p) := rfl

lemma u32pred_eq_sub_one (n : Nat) (h1 : 1 ≤ n) (h2 : n < U32MOD) :
    u32pred n = n - 1 := by
  unfold u32pred U32MOD at *
  omega

/-- When the pre-increment counter sits at threshold minus one and creating
the temporary file fails, `insert` applies the map mutation, resets the
counter, and propagates the save error; no file is modified. -/
lemma insert_threshold_fail_eq {T : Type} (s : BaseFsCache T) (fs : FsState T)
    (k : Path) (v : T)
    (hc : s.cache_modified_count = u32pred s.cache_save_threshold)
    (hFail : temp_store_path s ∈ fs.createFails) :
    insert s fs k v =
      (.error (.CacheFileIoError createErrMsg s.cache_path),
       { s with cache_modified_count := 0, cache := mapInsert s.cache k v },
       { fs with ioCount := fs.ioCount + 1 }) := by
  unfold insert update_transaction_count_and_save_if_necessary
  split
  · unfold save_inner
    split
    · rfl
    · next hnotin => exact absurd hFail hnotin
  · next hne => exact absurd hc hne

/-- The `remove` counterpart of `insert_threshold_fail_eq`. -/
lemma remove_threshold_fail_eq {T : Type} (s : BaseFsCache T) (fs : FsState T)
    (k : Path)
    (hc : s.cache_modified_count = u32pred s.cache_save_threshold)
    (hFail : temp_store_path s ∈ fs.createFails) :
    remove s fs k =
      (.error (.CacheFileIoError createErrMsg s.cache_path),
       { s with cache_modified_count := 0, cache := mapRemove s.cache k },
       { fs with ioCount := fs.ioCount + 1 }) := by
  unfold remove update_transaction_count_and_save_if_necessary
  split
  · unfold save_inner
    split
    · rfl
    · next hnotin => exact absurd hFail hnotin
  · next hne => exact absurd hc hne

/-- A threshold-hitting `insert` resets the counter and enters `save_inner`
exactly once, whatever the save outcome. -/
lemma insert_threshold_counter {T : Type} (s : BaseFsCache T) (fs : FsState T)
    (k : Path) (v : T)
    (hc : s.cache_modified_count = u32pred s.cache_save_threshold) :
    (insert s fs k v).2.1.cache_modified_count = 0 ∧
      (insert s fs k v).2.2.ioCount = fs.ioCount + 1 := by
  unfold insert update_transaction_count_and_save_if_necessary
  split
  · exact ⟨rfl, save_inner_ioCount _ _⟩
  · next hne => exact absurd hc hne

/-- The `remove` counterpart of `insert_threshold_counter`. -/
lemma remove_threshold_counter {T : Type} (s : BaseFsCache T) (fs : FsState T)
    (k : Path)
    (hc : s.cache_modified_count = u32pred s.cache_save_threshold) :
    (remove s fs k).2.1.cache_modified_count = 0 ∧
      (remove s fs k).2.2.ioCount = fs.ioCount + 1 := by
  unfold remove update_transaction_count_and_save_if_necessary
  split
  · exact ⟨rfl, save_inner_ioCount _ _⟩
  · next hne => exact absurd hc hne

/-
Claim theorems.
-/

/-- C4: for every path at which no file exists, constructing a store succeeds
and yields an empty store (zero entries); absence of the file is never
reported as an error. -/
theorem c4_open_missing_path_yields_empty_store {T : Type} (Tt : Nat) (p : Path)
    (fs : FsState T) (h : fsRead fs p = none) :
    new Tt p fs = .ok (loadedStore Tt p []) ∧
    ∀ s2, new Tt p fs = .ok s2 → len s2 = 0 := by
  have h1 : new Tt p fs = .ok (loadedStore Tt p []) := by
    rw [new_unfold, h]
  refine ⟨h1, ?_⟩
  intro s2 hs2
  rw [h1] at hs2
  injection hs2 with hs2
  rw [← hs2]
  rfl

theorem c4_witness :
    fsRead wFsEmpty wPathF = none ∧
    (new 7 wPathF wFsEmpty = .ok (loadedStore 7 wPathF []) ∧
      ∀ s2, new 7 wPathF wFsEmpty = .ok s2 → len s2 = 0) :=
  ⟨rfl, c4_open_missing_path_yields_empty_store 7 wPathF wFsEmpty rfl⟩

/-- C5: for every file at the cache path whose bytes fail to decode,
constructing the store returns a `DeserializationError` carrying the
underlying cause and the path, and never yields a store. -/
theorem c5_corrupt_file_fatal_error {T : Type} (Tt : Nat) (p : Path) (fs : FsState T)
    (msg : String) (h : fsRead fs p = some (.corrupt msg)) :
    new Tt p fs = .error (.DeserializationError msg p) ∧
    ∀ s2, new Tt p fs ≠ .ok s2 := by
  have h1 : new Tt p fs = .error (.DeserializationError msg p) := by
    rw [new_unfold, h]
  refine ⟨h1, ?_⟩
  intro s2 hs2
  rw [h1] at hs2
  exact Except.noConfusion hs2

theorem c5_witness :
    fsRead wFsCorrupt wPathF = some (.corrupt "decode failed") ∧
    (new 7 wPathF wFsCorrupt = .error (.DeserializationError "decode failed" wPathF) ∧
      ∀ s2, new 7 wPathF wFsCorrupt ≠ .ok s2) :=
  ⟨rfl, c5_corrupt_file_fatal_error 7 wPathF wFsCorrupt "decode failed" rfl⟩

/-- C7: an explicit `save` performs disk I/O (enters `save_inner`, bumping the
attempt counter) exactly when the modification counter is non-zero; with a
zero counter it is a complete no-op, and in either case the store, and in
particular its modification counter, is returned unchanged. -/
theorem c7_explicit_save_counter_discipline {T : Type} (s : BaseFsCache T)
    (fs : FsState T) :
    ((save s fs).2.2.ioCount = fs.ioCount + 1 ↔ s.cache_modified_count ≠ 0) ∧
    (s.cache_modified_count = 0 → save s fs = (.ok (), s, fs)) ∧
    (save s fs).2.1 = s := by
  unfold save
  by_cases h : s.cache_modified_count = 0
  · rw [if_neg (fun hne => hne h)]
    refine ⟨?_, fun _ => rfl, rfl⟩
    constructor
    · intro hio
      have hio2 : fs.ioCount = fs.ioCount + 1 := hio
      omega
    · intro hne
      exact absurd h hne
  · rw [if_pos h]
    refine ⟨?_, fun h0 => absurd h0 h, rfl⟩
    constructor
    · intro _
      exact h
    · intro _
      exact save_inner_ioCount s fs

theorem c7_witness :
    (((save wStoreZero wFsEmpty).2.2.ioCount = wFsEmpty.ioCount + 1 ↔
        wStoreZero.cache_modified_count ≠ 0) ∧
      (wStoreZero.cache_modified_count = 0 →
        save wStoreZero wFsEmpty = (.ok (), wStoreZero, wFsEmpty)) ∧
      (save wStoreZero wFsEmpty).2.1 = wStoreZero) ∧
    (((save wStoreBin wFsEmpty).2.2.ioCount = wFsEmpty.ioCount + 1 ↔
        wStoreBin.cache_modified_count ≠ 0) ∧
      (wStoreBin.cache_modified_count = 0 →
        save wStoreBin wFsEmpty = (.ok (), wStoreBin, wFsEmpty)) ∧
      (save wStoreBin wFsEmpty).2.1 = wStoreBin) :=
  ⟨c7_explicit_save_counter_discipline wStoreZero wFsEmpty,
   c7_explicit_save_counter_discipline wStoreBin wFsEmpty⟩

/-- C8: `get` returns the stored value (a clone) when the key is present,
returns `KeyMissingError` carrying exactly that key path when absent, and in
both cases leaves the store unchanged. -/
theorem c8_get_semantics {T : Type} (s : BaseFsCache T) (k : Path) :
    (∀ v, mapGet s.cache k = some v → get s k = .ok v) ∧
    (mapGet s.cache k = none → get s k = .error (.KeyMissingError k)) ∧
    getWithState s k = (get s k, s) := by
  refine ⟨?_, ?_, rfl⟩
  · intro v hv
    unfold get
    rw [hv]
  · intro hv
    unfold get
    rw [hv]

theorem c8_witness :
    get wStoreBin wKeyA = .ok 7 ∧
    get wStoreBin wKeyB = .error (.KeyMissingError wKeyB) ∧
    getWithState wStoreBin wKeyB = (get wStoreBin wKeyB, wStoreBin) :=
  ⟨(c8_get_semantics wStoreBin wKeyA).1 7 rfl,
   (c8_get_semantics wStoreBin wKeyB).2.1 rfl,
   (c8_get_semantics wStoreBin wKeyB).2.2⟩

/-- C9: the temporary save path is the cache path with its extension replaced
by tmp (not appended); when the cache path extension is already tmp the
temporary path coincides with the target, so creating the temporary file
truncates the target itself and the snapshot is written directly into it
before the (self-)rename, voiding the write-then-rename protection. -/
theorem c9_tmp_extension_voids_protection {T : Type} (s : BaseFsCache T)
    (fs : FsState T) (h : s.cache_path.ext = some "tmp") :
    temp_store_path s = Path.mk s.cache_path.dir s.cache_path.stem (some "tmp") ∧
    temp_store_path s = s.cache_path ∧
    fsRead (saveTempTruncated s fs) s.cache_path = some (.encoded []) ∧
    fsRead (saveTempWritten s fs) s.cache_path = some (.encoded s.cache) := by
  have heq : temp_store_path s = s.cache_path := by
    cases hc : s.cache_path with
    | mk d st e =>
      have he : e = some "tmp" := by rw [hc] at h; exact h
      unfold temp_store_path Path.withExtension
      rw [hc, he]
  refine ⟨rfl, heq, ?_, ?_⟩
  · unfold saveTempTruncated
    rw [heq]
    exact fsRead_fsWrite_self _ _ _
  · unfold saveTempWritten
    rw [heq]
    exact fsRead_fsWrite_self _ _ _

theorem c9_witness :
    cexStore.cache_path.ext = some "tmp" ∧
    (temp_store_path cexStore =
        Path.mk cexStore.cache_path.dir cexStore.cache_path.stem (some "tmp") ∧
      temp_store_path cexStore = cexStore.cache_path ∧
      fsRead (saveTempTruncated cexStore cexFs) cexStore.cache_path =
        some (.encoded []) ∧
      fsRead (saveTempWritten cexStore cexFs) cexStore.cache_path =
        some (.encoded cexStore.cache)) :=
  ⟨rfl, c9_tmp_extension_voids_protection cexStore cexFs rfl⟩

/-- C1 counterexample: for a store whose cache path already carries the tmp
extension, the save state with the temporary file fully written and the
rename not yet performed has already clobbered the target: its previous
contents are changed, and loading from the target no longer yields what it
yielded before, refuting the claim as universally stated. -/
theorem c1_counterexample :
    ¬ (fsRead (saveTempWritten cexStore cexFs) cexStore.cache_path =
         fsRead cexFs cexStore.cache_path ∧
       new 10 cexStore.cache_path (saveTempWritten cexStore cexFs) =
         new 10 cexStore.cache_path cexFs) := by
  decide

/-- C1 (amended): for every store whose cache path extension is not already
tmp, the save protocol serializes the entire map into the sibling temporary
file and only afterwards replaces the target by a single rename of that
temporary file; in every intermediate state up to and including the one where
the temporary file is fully written but the rename has not yet happened, the
target path content (or its absence) is unchanged and loading from the target
gives exactly what it gave before. -/
theorem c1_crash_safety_amended {T : Type} (s : BaseFsCache T) (fs : FsState T)
    (hExt : s.cache_path.ext ≠ some "tmp") :
    fsRead (saveTempTruncated s fs) s.cache_path = fsRead fs s.cache_path ∧
    fsRead (saveTempWritten s fs) s.cache_path = fsRead fs s.cache_path ∧
    (∀ Tt : Nat, new Tt s.cache_path (saveTempWritten s fs) = new Tt s.cache_path fs) ∧
    (temp_store_path s ∉ fs.createFails →
      ∃ fs2, fsRename (saveTempWritten s fs) (temp_store_path s) s.cache_path = some fs2 ∧
        save_inner s fs = (.ok (), fs2)) := by
  have hne : s.cache_path ≠ temp_store_path s := by
    intro he
    apply hExt
    rw [he]
    rfl
  have h1 : fsRead (saveTempTruncated s fs) s.cache_path = fsRead fs s.cache_path := by
    unfold saveTempTruncated
    rw [fsRead_fsWrite_ne _ _ _ _ hne]
    rfl
  have h2 : fsRead (saveTempWritten s fs) s.cache_path = fsRead fs s.cache_path := by
    unfold saveTempWritten
    rw [fsRead_fsWrite_ne _ _ _ _ hne, h1]
  refine ⟨h1, h2, ?_, ?_⟩
  · intro Tt
    rw [new_unfold, new_unfold, h2]
  · intro hc
    have hread : fsRead (saveTempWritten s fs) (temp_store_path s) =
        some (.encoded s.cache) := fsRead_fsWrite_self _ _ _
    have hr : fsRename (saveTempWritten s fs) (temp_store_path s) s.cache_path =
        some (fsWrite (fsErase (saveTempWritten s fs) (temp_store_path s)) s.cache_path
          (.encoded s.cache)) := by
      unfold fsRename
      rw [hread]
    refine ⟨_, hr, ?_⟩
    unfold save_inner
    rw [if_neg hc, hr]

theorem c1_crash_safety_amended_witness :
    wStoreBin.cache_path.ext ≠ some "tmp" ∧
    (fsRead (saveTempTruncated wStoreBin wFsEmpty) wStoreBin.cache_path =
        fsRead wFsEmpty wStoreBin.cache_path ∧
      fsRead (saveTempWritten wStoreBin wFsEmpty) wStoreBin.cache_path =
        fsRead wFsEmpty wStoreBin.cache_path ∧
      (∀ Tt : Nat, new Tt wStoreBin.cache_path (saveTempWritten wStoreBin wFsEmpty) =
        new Tt wStoreBin.cache_path wFsEmpty) ∧
      (temp_store_path wStoreBin ∉ wFsEmpty.createFails →
        ∃ fs2, fsRename (saveTempWritten wStoreBin wFsEmpty) (temp_store_path wStoreBin)
            wStoreBin.cache_path = some fs2 ∧
          save_inner wStoreBin wFsEmpty = (.ok (), fs2))) :=
  ⟨by decide, c1_crash_safety_amended wStoreBin wFsEmpty (by decide)⟩

/-- C6: when an insert or remove triggers an autosave and that autosave fails
with a fatal persistence error, the error propagates out of the insert or
remove call itself, and the map mutation has nonetheless taken effect in
memory: the inserted key maps to the inserted value, respectively the removed
key is absent. -/
theorem c6_failed_autosave_error_propagates_mutation_applied {T : Type}
    (s : BaseFsCache T) (fs : FsState T) (k : Path) (v : T)
    (hc : s.cache_modified_count = u32pred s.cache_save_threshold)
    (hFail : temp_store_path s ∈ fs.createFails) :
    ((insert s fs k v).1 = .error (.CacheFileIoError createErrMsg s.cache_path) ∧
      mapGet (insert s fs k v).2.1.cache k = some v) ∧
    ((remove s fs k).1 = .error (.CacheFileIoError createErrMsg s.cache_path) ∧
      mapGet (remove s fs k).2.1.cache k = none) := by
  rw [insert_threshold_fail_eq s fs k v hc hFail, remove_threshold_fail_eq s fs k hc hFail]
  exact ⟨⟨rfl, mapGet_mapInsert_self _ _ _⟩, ⟨rfl, mapGet_mapRemove_self _ _⟩⟩

theorem c6_witness :
    (wStoreT1.cache_modified_count = u32pred wStoreT1.cache_save_threshold ∧
      temp_store_path wStoreT1 ∈ wFsFail.createFails) ∧
    (((insert wStoreT1 wFsFail wKeyB 9).1 =
        .error (.CacheFileIoError createErrMsg wStoreT1.cache_path) ∧
      mapGet (insert wStoreT1 wFsFail wKeyB 9).2.1.cache wKeyB = some 9) ∧
     ((remove wStoreT1 wFsFail wKeyB).1 =
        .error (.CacheFileIoError createErrMsg wStoreT1.cache_path) ∧
      mapGet (remove wStoreT1 wFsFail wKeyB).2.1.cache wKeyB = none)) :=
  ⟨⟨by decide, by decide⟩,
   c6_failed_autosave_error_propagates_mutation_applied wStoreT1 wFsFail wKeyB 9
     (by decide) (by decide)⟩

/-- C10: when the threshold-hitting mutation autosave fails, the counter was
already reset to zero before the save attempt and is not restored on failure;
no file content was changed, and an explicit `save` called immediately after
(with no intervening mutations) observes a zero counter and is a no-op,
leaving the unsaved mutations unpersisted. -/
theorem c10_failed_autosave_then_noop_save {T : Type}
    (s : BaseFsCache T) (fs : FsState T) (k : Path) (v : T)
    (hc : s.cache_modified_count = u32pred s.cache_save_threshold)
    (hFail : temp_store_path s ∈ fs.createFails) :
    ((insert s fs k v).1 = .error (.CacheFileIoError createErrMsg s.cache_path) ∧
      (insert s fs k v).2.1.cache_modified_count = 0 ∧
      (insert s fs k v).2.2.files = fs.files ∧
      save (insert s fs k v).2.1 (insert s fs k v).2.2 =
        (.ok (), (insert s fs k v).2.1, (insert s fs k v).2.2)) ∧
    ((remove s fs k).1 = .error (.CacheFileIoError createErrMsg s.cache_path) ∧
      (remove s fs k).2.1.cache_modified_count = 0 ∧
      (remove s fs k).2.2.files = fs.files ∧
      save (remove s fs k).2.1 (remove s fs k).2.2 =
        (.ok (), (remove s fs k).2.1, (remove s fs k).2.2)) := by
  rw [insert_threshold_fail_eq s fs k v hc hFail, remove_threshold_fail_eq s fs k hc hFail]
  refine ⟨⟨rfl, rfl, rfl, ?_⟩, ⟨rfl, rfl, rfl, ?_⟩⟩
  · unfold save
    rw [if_neg (fun hne => hne rfl)]
  · unfold save
    rw [if_neg (fun hne => hne rfl)]

theorem c10_witness :
    (wStoreT1.cache_modified_count = u32pred wStoreT1.cache_save_threshold ∧
      temp_store_path wStoreT1 ∈ wFsFail.createFails) ∧
    (((insert wStoreT1 wFsFail wKeyB 9).1 =
        .error (.CacheFileIoError createErrMsg wStoreT1.cache_path) ∧
      (insert wStoreT1 wFsFail wKeyB 9).2.1.cache_modified_count = 0 ∧
      (insert wStoreT1 wFsFail wKeyB 9).2.2.files = wFsFail.files ∧
      save (insert wStoreT1 wFsFail wKeyB 9).2.1 (insert wStoreT1 wFsFail wKeyB 9).2.2 =
        (.ok (), (insert wStoreT1 wFsFail wKeyB 9).2.1,
          (insert wStoreT1 wFsFail wKeyB 9).2.2)) ∧
     ((remove wStoreT1 wFsFail wKeyB).1 =
        .error (.CacheFileIoError createErrMsg wStoreT1.cache_path) ∧
      (remove wStoreT1 wFsFail wKeyB).2.1.cache_modified_count = 0 ∧
      (remove wStoreT1 wFsFail wKeyB).2.2.files = wFsFail.files ∧
      save (remove wStoreT1 wFsFail wKeyB).2.1 (remove wStoreT1 wFsFail wKeyB).2.2 =
        (.ok (), (remove wStoreT1 wFsFail wKeyB).2.1,
          (remove wStoreT1 wFsFail wKeyB).2.2))) :=
  ⟨⟨by decide, by decide⟩,
   c10_failed_autosave_then_noop_save wStoreT1 wFsFail wKeyB 9 (by decide) (by decide)⟩

/-- C3: for a threshold of at least 1, a single-threaded insert or remove
whose pre-increment counter equals threshold minus one resets the counter to
zero and enters the synchronous save routine exactly once; in particular, with
threshold 3 on an initially empty store, inserting three distinct keys
sequentially causes exactly one automatic save, after which the counter is
zero and the persisted file, once loaded, contains exactly those three
entries. -/
theorem c3_threshold_single_save {T : Type} (s : BaseFsCache T) (fs : FsState T)
    (k : Path) (v : T)
    (hT1 : 1 ≤ s.cache_save_threshold) (hT2 : s.cache_save_threshold < U32MOD)
    (hc : s.cache_modified_count = s.cache_save_threshold - 1) :
    ((insert s fs k v).2.1.cache_modified_count = 0 ∧
      (insert s fs k v).2.2.ioCount = fs.ioCount + 1) ∧
    ((remove s fs k).2.1.cache_modified_count = 0 ∧
      (remove s fs k).2.2.ioCount = fs.ioCount + 1) ∧
    demoRun.2.ioCount = 1 ∧
    demoRun.1.cache_modified_count = 0 ∧
    new 3 wPathF demoRun.2 = .ok (loadedStore 3 wPathF demoRun.1.cache) ∧
    mapGet demoRun.1.cache wKeyA = some 10 ∧
    mapGet demoRun.1.cache wKeyB = some 20 ∧
    mapGet demoRun.1.cache wKeyC = some 30 ∧
    len demoRun.1 = 3 := by
  have hc2 : s.cache_modified_count = u32pred s.cache_save_threshold := by
    rw [u32pred_eq_sub_one _ hT1 hT2]
    exact hc
  exact ⟨insert_threshold_counter s fs k v hc2, remove_threshold_counter s fs k hc2,
    rfl, rfl, rfl, rfl, rfl, rfl, rfl⟩

theorem c3_witness :
    (1 ≤ wStoreT3.cache_save_threshold ∧ wStoreT3.cache_save_threshold < U32MOD ∧
      wStoreT3.cache_modified_count = wStoreT3.cache_save_threshold - 1) ∧
    (((insert wStoreT3 wFsEmpty wKeyB 9).2.1.cache_modified_count = 0 ∧
      (insert wStoreT3 wFsEmpty wKeyB 9).2.2.ioCount = wFsEmpty.ioCount + 1) ∧
     ((remove wStoreT3 wFsEmpty wKeyB).2.1.cache_modified_count = 0 ∧
      (remove wStoreT3 wFsEmpty wKeyB).2.2.ioCount = wFsEmpty.ioCount + 1) ∧
     demoRun.2.ioCount = 1 ∧
     demoRun.1.cache_modified_count = 0 ∧
     new 3 wPathF demoRun.2 = .ok (loadedStore 3 wPathF demoRun.1.cache) ∧
     mapGet demoRun.1.cache wKeyA = some 10 ∧
     mapGet demoRun.1.cache wKeyB = some 20 ∧
     mapGet demoRun.1.cache wKeyC = some 30 ∧
     len demoRun.1 = 3) :=
  ⟨⟨by decide, by decide, rfl⟩,
   c3_threshold_single_save wStoreT3 wFsEmpty wKeyB 9 (by decide) (by decide) rfl⟩

/-- C2: for every finite sequence of insert and remove operations ending in a
call to `save` that actually writes (non-zero counter), loading a fresh store
from the same path yields a map equal to the in-memory map at save time:
identical key set and equal values for every key. -/
theorem c2_round_trip {T : Type} (s0 : BaseFsCache T) (fs0 : FsState T)
    (ops : List (CacheOp T)) (Tnew : Nat)
    (hEnv : fs0.createFails = [])
    (hWrites : (runOps s0 fs0 ops).1.cache_modified_count ≠ 0) :
    (save (runOps s0 fs0 ops).1 (runOps s0 fs0 ops).2).1 = .ok () ∧
    new Tnew (runOps s0 fs0 ops).1.cache_path
        (save (runOps s0 fs0 ops).1 (runOps s0 fs0 ops).2).2.2 =
      .ok (loadedStore Tnew (runOps s0 fs0 ops).1.cache_path (runOps s0 fs0 ops).1.cache) ∧
    (∀ kk, mapGet (loadedStore Tnew (runOps s0 fs0 ops).1.cache_path
        (runOps s0 fs0 ops).1.cache).cache kk = mapGet (runOps s0 fs0 ops).1.cache kk) ∧
    keys (loadedStore Tnew (runOps s0 fs0 ops).1.cache_path (runOps s0 fs0 ops).1.cache) =
      keys (runOps s0 fs0 ops).1 := by
  have hcf : (runOps s0 fs0 ops).2.createFails = [] := by
    rw [runOps_createFails]
    exact hEnv
  have hnotin : temp_store_path (runOps s0 fs0 ops).1 ∉ (runOps s0 fs0 ops).2.createFails := by
    rw [hcf]
    exact List.not_mem_nil _
  obtain ⟨hok, hread⟩ := save_inner_ok (runOps s0 fs0 ops).1 (runOps s0 fs0 ops).2 hnotin
  have hsave : save (runOps s0 fs0 ops).1 (runOps s0 fs0 ops).2 =
      ((save_inner (runOps s0 fs0 ops).1 (runOps s0 fs0 ops).2).1,
       (runOps s0 fs0 ops).1,
       (save_inner (runOps s0 fs0 ops).1 (runOps s0 fs0 ops).2).2) := by
    unfold save
    rw [if_pos hWrites]
  refine ⟨?_, ?_, fun kk => rfl, rfl⟩
  · rw [hsave]
    exact hok
  · rw [hsave, new_unfold, hread]

theorem c2_witness :
    (wFsEmpty.createFails = [] ∧
      (runOps rtStore wFsEmpty rtOps).1.cache_modified_count ≠ 0) ∧
    ((save (runOps rtStore wFsEmpty rtOps).1 (runOps rtStore wFsEmpty rtOps).2).1 = .ok () ∧
      new 9 (runOps rtStore wFsEmpty rtOps).1.cache_path
          (save (runOps rtStore wFsEmpty rtOps).1 (runOps rtStore wFsEmpty rtOps).2).2.2 =
        .ok (loadedStore 9 (runOps rtStore wFsEmpty rtOps).1.cache_path
          (runOps rtStore wFsEmpty rtOps).1.cache) ∧
      (∀ kk, mapGet (loadedStore 9 (runOps rtStore wFsEmpty rtOps).1.cache_path
          (runOps rtStore wFsEmpty rtOps).1.cache).cache kk =
        mapGet (runOps rtStore wFsEmpty rtOps).1.cache kk) ∧
      keys (loadedStore 9 (runOps rtStore wFsEmpty rtOps).1.cache_path
          (runOps rtStore wFsEmpty rtOps).1.cache) =
        keys (runOps rtStore wFsEmpty rtOps).1) :=
  ⟨⟨rfl, by decide⟩, c2_round_trip rtStore wFsEmpty rtOps 9 rfl (by decide)⟩

end GenericFsCache
